import Mathlib

/-!
Verification of the Shopify content-proxy route of the audacem-blog
repository (src/app/api/shopify-proxy/[[...path]]/route.ts and
src/app/api/shopify-proxy/route.ts), as a shallow embedding in Lean.

Conventions of the embedding:
* JavaScript strings are Lean `String`s; `URLSearchParams` is a
  `List (String × String)` in entry order (duplicate keys allowed).
* Machine words of SHA-256 are `Nat` with explicit reduction mod 2^32.
* External collaborators (the portable-text `toHTML` converter and the
  `toLocaleDateString` formatter) are parameters, bundled in `ExtFns`.
* The content store (Sanity) is a parameter `ProxyStore`; fetch results
  are `Option`s and thrown exceptions are `Except.error`.
-/

/-- JavaScript truthiness of a possibly absent string: `undefined`/`null`
and the empty string are falsy. -/
def jsTruthy : Option String → Bool
  | none => false
  | some s => s != ""

/-- JavaScript `a || b` on possibly absent strings. -/
def jsOr (a b : Option String) : Option String :=
  if jsTruthy a then a else b

/-- `str.replace(/c/g, rep)` on the character list of a JS string:
every occurrence of the single character `c` is replaced by `rep`. -/
def replaceChar (c : Char) (rep : List Char) : List Char → List Char
  | [] => []
  | x :: xs => (if x = c then rep else [x]) ++ replaceChar c rep xs

/-- The replacement chain of `escapeHTML` (route.ts lines 240-244):
`&` → `&amp;`, then `<` → `&lt;`, then `>` → `&gt;`, then `"` → `&quot;`. -/
def escRun (s : String) : String :=
  String.mk (replaceChar '"' "&quot;".data
    (replaceChar '>' "&gt;".data
      (replaceChar '<' "&lt;".data
        (replaceChar '&' "&amp;".data s.data))))

/-- `escapeHTML` of the catch-all route (lines 238-245): a falsy input
(`undefined`, `null` or `""`) yields `''`, otherwise the replacement
chain runs. -/
def escapeHTML (v : Option String) : String :=
  if jsTruthy v then escRun (v.getD "") else ""

/-- `array.join('')`: concatenation of a list of strings. -/
def concatAll : List String → String
  | [] => ""
  | s :: rest => s ++ concatAll rest

/-- `array.join(sep)`: concatenation with a separator between entries. -/
def sepConcat (sep : String) : List String → String
  | [] => ""
  | [s] => s
  | s :: rest => s ++ sep ++ sepConcat sep rest

/-- Number of occurrences of character `c` in string `s`. -/
def countCh (c : Char) (s : String) : Nat :=
  s.data.count c

/-- `pat` is an initial segment of `l`. -/
def leadsWith : List Char → List Char → Bool
  | [], _ => true
  | _ :: _, [] => false
  | a :: x, b :: y => a == b && leadsWith x y

/-- `pat` occurs contiguously somewhere in `l`. -/
def containsSeq (pat : List Char) : List Char → Bool
  | [] => pat.isEmpty
  | c :: rest => leadsWith pat (c :: rest) || containsSeq pat rest

/-- `pat` occurs as a contiguous substring of `s`. -/
def occursStr (pat s : String) : Bool :=
  containsSeq pat.data s.data

/-! ## SHA-256 and HMAC-SHA256 (node `crypto.createHmac('sha256', …)`)

Pure executable model: bytes and 32-bit words are `Nat`, with explicit
reduction modulo 2^32.  Strings fed to `update` are UTF-8 encoded. -/

/-- 2^32, the word modulus of SHA-256. -/
def M32 : Nat := 4294967296

/-- Right rotation of a 32-bit word. -/
def rotr (n k : Nat) : Nat := ((n >>> k) ||| (n <<< (32 - k))) % M32

/-- Bitwise complement of a 32-bit word. -/
def not32 (n : Nat) : Nat := n ^^^ (M32 - 1)

/-- SHA-256 big sigma 0. -/
def bs0 (x : Nat) : Nat := (rotr x 2) ^^^ (rotr x 13) ^^^ (rotr x 22)

/-- SHA-256 big sigma 1. -/
def bs1 (x : Nat) : Nat := (rotr x 6) ^^^ (rotr x 11) ^^^ (rotr x 25)

/-- SHA-256 small sigma 0. -/
def ss0 (x : Nat) : Nat := (rotr x 7) ^^^ (rotr x 18) ^^^ (x >>> 3)

/-- SHA-256 small sigma 1. -/
def ss1 (x : Nat) : Nat := (rotr x 17) ^^^ (rotr x 19) ^^^ (x >>> 10)

/-- The 64 SHA-256 round constants. -/
def sha256K : List Nat :=
  [1116352408, 1899447441, 3049323471, 3921009573, 961987163, 1508970993,
   2453635748, 2870763221, 3624381080, 310598401, 607225278, 1426881987,
   1925078388, 2162078206, 2614888103, 3248222580, 3835390401, 4022224774,
   264347078, 604807628, 770255983, 1249150122, 1555081692, 1996064986,
   2554220882, 2821834349, 2952996808, 3210313671, 3336571891, 3584528711,
   113926993, 338241895, 666307205, 773529912, 1294757372, 1396182291,
   1695183700, 1986661051, 2177026350, 2456956037, 2730485921, 2820302411,
   3259730800, 3345764771, 3516065817, 3600352804, 4094571909, 275423344,
   430227734, 506948616, 659060556, 883997877, 958139571, 1322822218,
   1537002063, 1747873779, 1955562222, 2024104815, 2227730452, 2361852424,
   2428436474, 2756734187, 3204031479, 3329325298]

/-- The eight-word hash state of SHA-256. -/
structure Sha256State where
  h0 : Nat
  h1 : Nat
  h2 : Nat
  h3 : Nat
  h4 : Nat
  h5 : Nat
  h6 : Nat
  h7 : Nat

/-- SHA-256 initial hash value. -/
def initH : Sha256State :=
  ⟨1779033703, 3144134277, 1013904242, 2773480762,
   1359893119, 2600822924, 528734635, 1541459225⟩

/-- Big-endian assembly of bytes into 32-bit words. -/
def bytesToWords : List Nat → List Nat
  | b0 :: b1 :: b2 :: b3 :: rest =>
      (b0 * 16777216 + b1 * 65536 + b2 * 256 + b3) :: bytesToWords rest
  | _ => []

/-- Message-schedule extension step: the accumulator holds the words
produced so far, most recent first, so `w[i-2]`, `w[i-7]`, `w[i-15]`
and `w[i-16]` sit at positions 1, 6, 14 and 15. -/
def extendGo : Nat → List Nat → List Nat
  | 0, rev => rev.reverse
  | n + 1, rev =>
      extendGo n (((ss1 (rev.getD 1 0) + rev.getD 6 0 +
                    ss0 (rev.getD 14 0) + rev.getD 15 0) % M32) :: rev)

/-- Message-schedule extension of the 16 block words to 64 words. -/
def extendWords (ws : List Nat) : List Nat :=
  extendGo 48 ws.reverse

/-- The 64 compression rounds of one SHA-256 block, consuming the round
constants and the message schedule in lockstep. -/
def sha256Rounds : List Nat → List Nat → Sha256State → Sha256State
  | k :: ks, w :: ws, s =>
      let ch := (s.h4 &&& s.h5) ^^^ (not32 s.h4 &&& s.h6)
      let maj := (s.h0 &&& s.h1) ^^^ (s.h0 &&& s.h2) ^^^ (s.h1 &&& s.h2)
      let t1 := (s.h7 + bs1 s.h4 + ch + k + w) % M32
      let t2 := (bs0 s.h0 + maj) % M32
      sha256Rounds ks ws
        ⟨(t1 + t2) % M32, s.h0, s.h1, s.h2, (s.h3 + t1) % M32, s.h4, s.h5, s.h6⟩
  | _, _, s => s

/-- Compression of one 64-byte block into the running state. -/
def compressBlock (st : Sha256State) (block : List Nat) : Sha256State :=
  let f := sha256Rounds sha256K (extendWords (bytesToWords block)) st
  ⟨(st.h0 + f.h0) % M32, (st.h1 + f.h1) % M32, (st.h2 + f.h2) % M32,
   (st.h3 + f.h3) % M32, (st.h4 + f.h4) % M32, (st.h5 + f.h5) % M32,
   (st.h6 + f.h6) % M32, (st.h7 + f.h7) % M32⟩

/-- SHA-256 padding: `0x80`, zeros to 56 mod 64, then the bit length
big-endian in 8 bytes. -/
def sha256Pad (msg : List Nat) : List Nat :=
  let L := msg.length
  msg ++ [128] ++ List.replicate ((119 - L % 64) % 64) 0 ++
    (List.range 8).map (fun i => ((8 * L) >>> (8 * (7 - i))) % 256)

/-- Fuel-indexed block loop (the fuel is an upper bound on the number of
blocks; structural recursion so the kernel can evaluate it). -/
def sha256Blocks : Nat → Sha256State → List Nat → Sha256State
  | 0, st, _ => st
  | _ + 1, st, [] => st
  | fuel + 1, st, l => sha256Blocks fuel (compressBlock st (l.take 64)) (l.drop 64)

/-- Big-endian bytes of one 32-bit word. -/
def wordBytes (w : Nat) : List Nat :=
  [(w >>> 24) % 256, (w >>> 16) % 256, (w >>> 8) % 256, w % 256]

/-- SHA-256 digest (32 bytes) of a byte sequence. -/
def sha256Bytes (msg : List Nat) : List Nat :=
  let padded := sha256Pad msg
  let st := sha256Blocks padded.length initH padded
  wordBytes st.h0 ++ wordBytes st.h1 ++ wordBytes st.h2 ++ wordBytes st.h3 ++
    wordBytes st.h4 ++ wordBytes st.h5 ++ wordBytes st.h6 ++ wordBytes st.h7

/-- UTF-8 encoding of one character. -/
def utf8Bytes (c : Char) : List Nat :=
  let n := c.toNat
  if n < 128 then [n]
  else if n < 2048 then [192 + n / 64, 128 + n % 64]
  else if n < 65536 then [224 + n / 4096, 128 + (n / 64) % 64, 128 + n % 64]
  else [240 + n / 262144, 128 + (n / 4096) % 64, 128 + (n / 64) % 64, 128 + n % 64]

/-- UTF-8 bytes of a string (node feeds strings to `update` as UTF-8). -/
def strBytes (s : String) : List Nat :=
  (s.data.map utf8Bytes).flatten

/-- Lowercase hexadecimal digit. -/
def hexDigit (n : Nat) : Char :=
  Char.ofNat (if n < 10 then 48 + n else 87 + n)

/-- Lowercase hexadecimal rendering of a byte sequence
(`digest('hex')`). -/
def bytesToHex (bs : List Nat) : String :=
  String.mk ((bs.map (fun b => [hexDigit (b / 16), hexDigit (b % 16)])).flatten)

/-- `crypto.createHmac('sha256', key).update(msg).digest('hex')`:
HMAC-SHA256 with block size 64, lowercase hex output. -/
def hmacSha256Hex (key msg : String) : String :=
  let kb := strBytes key
  let k0 := if 64 < kb.length then sha256Bytes kb else kb
  let kp := k0 ++ List.replicate (64 - k0.length) 0
  bytesToHex (sha256Bytes ((kp.map (fun b => b ^^^ 92)) ++
    sha256Bytes ((kp.map (fun b => b ^^^ 54)) ++ strBytes msg)))

/-! ## The sort comparator: JS `a.localeCompare(b)`

`verifyShopifySignature` sorts parameter keys with
`.sort(([a], [b]) => a.localeCompare(b))` (route.ts line 17), the
ECMA-402 default-locale comparison, i.e. the ICU root collation (UCA)
at its default tertiary strength.  The model below implements that
algorithm restricted to ASCII:

* completely ignorable characters (the C0 controls other than the
  whitespace controls TAB..CR, and DEL) are removed before comparison;
* the remaining characters are compared by a full primary pass first:
  whitespace controls, space, punctuation and symbols in the DUCET root
  order, then digits, then letters compared case-insensitively;
* on a primary tie a tertiary (case) pass runs over the same
  characters, lowercase before uppercase (so `a < A < ab`, and
  `Aa < ab` because the whole primary level is compared first).

Characters outside ASCII are outside the modelled scope; they are
placed after all ASCII characters by code point.  Every concrete string
this development evaluates on is ASCII. -/
def collIgnorable (c : Char) : Bool :=
  let n := c.toNat
  decide (n ≤ 8) || (decide (14 ≤ n) && decide (n ≤ 31)) || n == 127

/-- The DUCET/root primary order of the non-ignorable, non-alphanumeric
ASCII characters: TAB LF VT FF CR SPACE `_` `-` `,` `;` `:` `!` `?` `.`
`'` `"` `(` `)` `[` `]` then the two brace characters, `@` `*` `/` `\`
`&` `#` `%` then backtick `^` `+` `<` `=` `>` `|` `~` `$`. -/
def asciiVarOrder : List Nat :=
  [9, 10, 11, 12, 13, 32, 95, 45, 44, 59, 58, 33, 63, 46, 39, 34, 40, 41,
   91, 93, 123, 125, 64, 42, 47, 92, 38, 35, 37, 96, 94, 43, 60, 61, 62, 124, 126]

/-- Primary collation weight of a non-ignorable character: variable
characters and symbols first (DUCET order), `$` last among them, then
digits, then letters case-insensitively. -/
def collPrimary (c : Char) : Nat :=
  let n := c.toNat
  if 97 ≤ n ∧ n ≤ 122 then 2000 + (n - 97)
  else if 65 ≤ n ∧ n ≤ 90 then 2000 + (n - 65)
  else if 48 ≤ n ∧ n ≤ 57 then 1000 + (n - 48)
  else if n = 36 then 999
  else if n < 128 then asciiVarOrder.indexOf n
  else 100000 + n

/-- Tertiary (case) collation weight: lowercase before uppercase. -/
def collTertiary (c : Char) : Nat :=
  if 65 ≤ c.toNat ∧ c.toNat ≤ 90 then 1 else 0

/-- Lexicographic three-way comparison of weight lists. -/
def compareLists : List Nat → List Nat → Ordering
  | [], [] => .eq
  | [], _ :: _ => .lt
  | _ :: _, [] => .gt
  | a :: x, b :: y =>
      match compare a b with
      | .eq => compareLists x y
      | o => o

/-- The primary key of a string: primary weights of its non-ignorable
characters. -/
def collPrim (s : String) : List Nat :=
  (s.data.filter (fun c => !(collIgnorable c))).map collPrimary

/-- The tertiary key of a string: case weights of its non-ignorable
characters. -/
def collTert (s : String) : List Nat :=
  (s.data.filter (fun c => !(collIgnorable c))).map collTertiary

/-- The modelled `localeCompare`: the whole primary level is compared
first; only on a full primary tie does the tertiary (case) level
decide.  Strings differing only in ignorable characters compare `eq`. -/
def localeCompare (s t : String) : Ordering :=
  match compareLists (collPrim s) (collPrim t) with
  | .eq => compareLists (collTert s) (collTert t)
  | o => o

/-- The sort relation used on parameter entries: the comparator
`([a], [b]) => a.localeCompare(b)` orders an entry no later than another
when the comparison of the keys is not `gt`. -/
def paramLe (p q : String × String) : Prop :=
  localeCompare p.1 q.1 ≠ .gt

instance : DecidableRel paramLe := fun p q =>
  inferInstanceAs (Decidable (localeCompare p.1 q.1 ≠ .gt))

/-- `query.get('signature')`: the value of the first entry with key
`signature`, when present. -/
def findSignature (q : List (String × String)) : Option String :=
  (q.find? (fun p => p.1 == "signature")).map Prod.snd

/-- `params.delete('signature')`: removes every entry with that key. -/
def deleteSignature (q : List (String × String)) : List (String × String) :=
  q.filter (fun p => !(p.1 == "signature"))

/-- JS `Array.prototype.sort` with the key comparator: a stable sort
(insertion sort is stable and ECMAScript requires stability). -/
def sortParams (l : List (String × String)) : List (String × String) :=
  List.insertionSort paramLe l

/-- The canonical string actually hashed by the code (route.ts lines
16-19): drop `signature`, sort remaining entries by key with
`localeCompare`, render each as `key=value`, join with `&`. -/
def canonicalString (q : List (String × String)) : String :=
  sepConcat "&" ((sortParams (deleteSignature q)).map (fun p => p.1 ++ "=" ++ p.2))

/-- `verifyShopifySignature` (route.ts lines 8-27), parameterized by the
`SHOPIFY_CLIENT_SECRET` environment value: absent or empty `signature`
returns false; otherwise the HMAC-SHA256 hex digest of the canonical
string is compared to the supplied signature for exact equality. -/
def verifyShopifySignature (secret : String) (q : List (String × String)) : Bool :=
  match findSignature q with
  | none => false
  | some s => if s == "" then false else hmacSha256Hex secret (canonicalString q) == s

/-- Byte/lexicographic key order.  This definition follows the SPEC's
words (spec.md section 4.1: "sorting remaining parameters by key using
byte/lexicographic ordering"), not the source, and exists only to be
compared against the source's `localeCompare` ordering. -/
def byteLe (p q : String × String) : Prop :=
  compareLists (p.1.data.map Char.toNat) (q.1.data.map Char.toNat) ≠ .gt

instance : DecidableRel byteLe := fun p q =>
  inferInstanceAs (Decidable (compareLists (p.1.data.map Char.toNat) (q.1.data.map Char.toNat) ≠ .gt))

/-- The canonical string as the SPEC describes it: identical to
`canonicalString` except that keys are sorted in byte order. -/
def canonicalSpecString (q : List (String × String)) : String :=
  sepConcat "&" ((List.insertionSort byteLe (deleteSignature q)).map
    (fun p => p.1 ++ "=" ++ p.2))

/-! ## Content model and rendering -/

/-- An author record of the author-list query (`fullName`, `slug`,
`photoUrl`); any field may be absent in the store's response. -/
structure AuthorRec where
  fullName : Option String
  slug : Option String
  photoUrl : Option String

/-- An entry of a post's `authors` array (`authors[]->{ fullName }`). -/
structure PostAuthor where
  fullName : Option String

/-- One FAQ item of a `faqBlock`. -/
structure FaqItem where
  question : Option String
  answer : Option String

/-- A body block as dispatched by `renderBody`'s switch on `_type`.
`other` stands for a runtime block whose `_type` tag is none of the four
known kinds (the switch's `default` arm).  Rich-text `content` is the
opaque portable-text value, carried as a `String` token and interpreted
only by the external `toHTML` collaborator. -/
inductive BodyBlock where
  | wysiwygBlock (title : Option String) (content : String)
  | faqBlock (title : Option String) (items : List FaqItem)
  | ctaBlock (title : Option String) (description : Option String) (btnText : Option String)
  | quickAnswerBlock (title : Option String) (content : String)
  | other (tag : String)

/-- A blog record of the single-post query. -/
structure PostRec where
  title : Option String
  shortDescription : Option String
  body : Option (List BodyBlock)
  mainPhotoUrl : Option String
  mainPhotoAlt : Option String
  publishedAt : Option String
  authors : Option (List PostAuthor)

/-- The external collaborators: the portable-text `toHTML` converter and
the `fr-FR` `toLocaleDateString` formatter. -/
structure ExtFns where
  toHTML : String → String
  formatDate : String → String

/-- The per-item template of a `faqBlock` (route.ts lines 211-216). -/
def faqItemRender (item : FaqItem) : String :=
  "\n            <div class=\"faq-item\">\n              <strong>" ++
    escapeHTML item.question ++ "</strong>\n              <p>" ++
    escapeHTML item.answer ++ "</p>\n            </div>\n          "

/-- One block's markup (`renderBody`'s switch, route.ts lines 200-235). -/
def renderBlock (ext : ExtFns) : BodyBlock → String
  | .wysiwygBlock title content =>
      "<section>\n          <h2>" ++ escapeHTML title ++ "</h2>\n          " ++
        ext.toHTML content ++ "\n        </section>"
  | .faqBlock title items =>
      "<section>\n          <h2>" ++ escapeHTML title ++ "</h2>\n          " ++
        concatAll (items.map faqItemRender) ++
        "\n        </section>"
  | .ctaBlock title description btnText =>
      "<section>\n          <h2>" ++ escapeHTML title ++ "</h2>\n          <p>" ++
        escapeHTML description ++ "</p>\n          <p><strong>" ++
        escapeHTML btnText ++ "</strong></p>\n        </section>"
  | .quickAnswerBlock title content =>
      "<section>\n          <h2>" ++ escapeHTML title ++ "</h2>\n          " ++
        ext.toHTML content ++ "\n        </section>"
  | .other _ => ""

/-- `renderBody` (route.ts lines 197-236): falsy body renders `''`,
otherwise each block's markup is concatenated in order. -/
def renderBody (ext : ExtFns) : Option (List BodyBlock) → String
  | none => ""
  | some bs => concatAll (bs.map (renderBlock ext))

/-- The author-card fragment produced for one author in list mode
(route.ts lines 71-76). -/
def authorCard (a : AuthorRec) : String :=
  "\n    <div class=\"author-card\">\n      " ++
    (if jsTruthy a.photoUrl then
      "<img src=\"" ++ a.photoUrl.getD "" ++ "\" alt=\"" ++ escapeHTML a.fullName ++ "\">"
     else "") ++
    "\n      <h2>" ++ escapeHTML a.fullName ++ "</h2>\n    </div>\n  "

/-- The author-list document up to the point where the cards are
interpolated (route.ts lines 78-117). -/
def listDocHead : String :=
  "<!DOCTYPE html>\n<html lang=\"fr\">\n<head>\n  <meta charset=\"UTF-8\">\n  <meta name=\"viewport\" content=\"width=device-width, initial-scale=1.0\">\n  <title>Nos auteurs</title>\n  <style>\n    body \x7b\n      font-family: -apple-system, BlinkMacSystemFont, \x27Segoe UI\x27, Roboto, sans-serif;\n      max-width: 900px;\n      margin: 0 auto;\n      padding: 40px 20px;\n      color: #1a1a1a;\n    \x7d\n    h1 \x7b font-size: 2rem; margin-bottom: 2rem; \x7d\n    .authors-grid \x7b\n      display: grid;\n      grid-template-columns: repeat(auto-fill, minmax(200px, 1fr));\n      gap: 2rem;\n    \x7d\n    .author-card \x7b\n      text-align: center;\n    \x7d\n    .author-card img \x7b\n      width: 120px;\n      height: 120px;\n      border-radius: 50%;\n      object-fit: cover;\n      margin-bottom: 1rem;\n    \x7d\n    .author-card h2 \x7b\n      font-size: 1rem;\n      margin: 0;\n    \x7d\n  </style>\n</head>\n<body>\n  <h1>Nos auteurs</h1>\n  <div class=\"authors-grid\">\n    "

/-- The tail of the author-list document after the cards. -/
def listDocTail : String :=
  "\n  </div>\n</body>\n</html>"

/-- `fetchAndRenderAuthorList` (route.ts lines 60-121) as a function of
the store's response: a missing or empty author collection throws
(`Except.error`); otherwise the full list document is produced with one
card per author in store order. -/
def fetchAndRenderAuthorList (authors : Option (List AuthorRec)) : Except String String :=
  match authors with
  | none => .error "No authors found"
  | some l =>
      if l.isEmpty then .error "No authors found"
      else .ok (listDocHead ++ concatAll (l.map authorCard) ++ listDocTail)

/-- `'Publié le' + date` when the formatted date string is truthy,
else `''` (route.ts lines 140-146 and 179). -/
def publishedDateStr (ext : ExtFns) (p : PostRec) : String :=
  if jsTruthy p.publishedAt then ext.formatDate (p.publishedAt.getD "") else ""

/-- `post.authors?.map(a => escapeHTML(a.fullName)).join(', ') || ''`
(route.ts line 148). -/
def authorNamesStr (p : PostRec) : String :=
  match p.authors with
  | none => ""
  | some l => sepConcat ", " (l.map (fun a => escapeHTML a.fullName))

/-- The meta line's first interpolation (route.ts line 179). -/
def publishedFragment (ext : ExtFns) (p : PostRec) : String :=
  if publishedDateStr ext p != "" then "Publié le " ++ publishedDateStr ext p else ""

/-- The meta line's second interpolation (route.ts line 180). -/
def authorsFragment (p : PostRec) : String :=
  if authorNamesStr p != "" then " · Par " ++ authorNamesStr p else ""

/-- The hero-image interpolation (route.ts line 182): the raw photo URL
in `src`, and `escapeHTML(post.mainPhotoAlt || post.title)` in `alt`. -/
def imgFragment (p : PostRec) : String :=
  if jsTruthy p.mainPhotoUrl then
    "<img src=\"" ++ p.mainPhotoUrl.getD "" ++ "\" alt=\"" ++
      escapeHTML (jsOr p.mainPhotoAlt p.title) ++ "\">"
  else ""

/-- Post document: start through the `<title>` interpolation. -/
def postDocA : String :=
  "<!DOCTYPE html>\n<html lang=\"fr\">\n<head>\n  <meta charset=\"UTF-8\">\n  <meta name=\"viewport\" content=\"width=device-width, initial-scale=1.0\">\n  <title>"

/-- Post document: between the `<title>` and `<h1>` interpolations
(the inline style sheet). -/
def postDocB : String :=
  "</title>\n  <style>\n    body \x7b\n      font-family: -apple-system, BlinkMacSystemFont, \x27Segoe UI\x27, Roboto, sans-serif;\n      max-width: 800px;\n      margin: 0 auto;\n      padding: 20px;\n      line-height: 1.6;\n      color: #1a1a1a;\n    \x7d\n    h1 \x7b font-size: 2.5rem; margin-bottom: 1rem; \x7d\n    h2 \x7b font-size: 1.75rem; margin-top: 2rem; \x7d\n    h3 \x7b font-size: 1.375rem; margin-top: 1.5rem; \x7d\n    .meta \x7b color: #666; margin-bottom: 2rem; font-size: 0.9rem; \x7d\n    img \x7b max-width: 100%; height: auto; border-radius: 8px; margin-bottom: 2rem; \x7d\n    p \x7b margin-bottom: 1rem; \x7d\n    .faq-item \x7b margin-bottom: 1.5rem; \x7d\n    .faq-item strong \x7b display: block; margin-bottom: 0.25rem; \x7d\n  </style>\n</head>\n<body>\n  <article>\n    <h1>"

/-- Post document: from the `<h1>` close to the published-date slot. -/
def postDocC : String :=
  "</h1>\n    <div class=\"meta\">\n      "

/-- Post document: between the two meta interpolations. -/
def postDocD : String := "\n      "

/-- Post document: meta close to the hero-image slot. -/
def postDocE : String := "\n    </div>\n    "

/-- Post document: hero image to the body slot. -/
def postDocF : String := "\n    <div class=\"content\">\n      "

/-- Post document: tail after the rendered body. -/
def postDocG : String :=
  "\n    </div>\n  </article>\n</body>\n</html>"

/-- The assembled single-post document (route.ts lines 150-188). -/
def renderPost (ext : ExtFns) (p : PostRec) : String :=
  postDocA ++ escapeHTML p.title ++ postDocB ++ escapeHTML p.title ++ postDocC ++
    publishedFragment ext p ++ postDocD ++ authorsFragment p ++ postDocE ++
    imgFragment p ++ postDocF ++ renderBody ext p.body ++ postDocG

/-- `fetchAndRenderPost` (route.ts lines 123-189) as a function of the
store's response for the slug: a missing record throws with the slug in
the (logged-only) message; otherwise the post document is produced. -/
def fetchAndRenderPost (ext : ExtFns) (post : Option PostRec) (slug : String) :
    Except String String :=
  match post with
  | none => .error ("Post not found: " ++ slug)
  | some p => .ok (renderPost ext p)

/-- The content store as seen by the handler: the single-post query
result per slug, and the author-list query result. -/
structure ProxyStore where
  post : String → Option PostRec
  authors : Option (List AuthorRec)

/-- The HTTP response produced by the handler. -/
structure HttpResponse where
  status : Nat
  body : String
  headers : List (String × String)
  deriving DecidableEq

/-- `path?.join('/') || ''` (route.ts line 40). -/
def slugOf (path : Option (List String)) : String :=
  match path with
  | none => ""
  | some segs => sepConcat "/" segs

/-- The mode selection and fetch inside the `try` (route.ts lines
43-45): empty slug or the reserved literal `liste` selects list mode,
any other slug selects single-post mode. -/
def routedFetch (ext : ExtFns) (store : ProxyStore) (slug : String) : Except String String :=
  if slug == "" || slug == "liste" then fetchAndRenderAuthorList store.authors
  else fetchAndRenderPost ext (store.post slug) slug

/-- The `GET` handler of the catch-all route (route.ts lines 29-58):
signature gate, mode selection, and collapse of every thrown error to a
fixed 404. -/
def GET (secret : String) (q : List (String × String)) (path : Option (List String))
    (ext : ExtFns) (store : ProxyStore) : HttpResponse :=
  if verifyShopifySignature secret q then
    match routedFetch ext store (slugOf path) with
    | .ok html =>
        ⟨200, html, [("Content-Type", "application/liquid"),
                     ("Cache-Control", "public, max-age=300")]⟩
    | .error _ => ⟨404, "Content not found", []⟩
  else ⟨401, "Unauthorized", []⟩

/-! ## Concrete inputs used by witnesses and counterexamples -/

/-- Trivial external collaborators for concrete evaluation. -/
def ext0 : ExtFns := ⟨fun _ => "", fun _ => ""⟩

/-- A query whose only parameter is a valid signature for the secret
`sec` (the canonical string of the remaining parameters is empty). -/
def sigOnlyQuery : List (String × String) := [("signature", hmacSha256Hex "sec" "")]

/-- A concrete author record. -/
def oneAuthor : AuthorRec := ⟨some "Ada", some "ada", none⟩

/-- A store with one author and no posts. -/
def storeOneAuthor : ProxyStore := ⟨fun _ => none, some [oneAuthor]⟩

/-- A store whose author-list query returns an absent value. -/
def storeEmpty : ProxyStore := ⟨fun _ => none, none⟩

/-- The document served for `storeOneAuthor` in list mode. -/
def listHtmlOneAuthor : String :=
  listDocHead ++ concatAll ([oneAuthor].map authorCard) ++ listDocTail

/-- A post with a photo URL but no alt text (and no other optionals). -/
def altlessPost : PostRec := ⟨some "T", none, none, some "u", none, none, none⟩

/-- A post with title only, every optional field absent. -/
def bareTitlePost : PostRec := ⟨some "Titre", none, none, none, none, none, none⟩

/-- A post whose photo URL contains `"`, `<`, `>` and `&`. -/
def hostileUrlPost : PostRec :=
  ⟨some "T", none, none, some "x\" onerror=\"<&>", none, none, none⟩

/-- An author whose photo URL contains `"`, `<`, `>` and `&`. -/
def hostileUrlAuthor : AuthorRec := ⟨some "Ada", some "ada", some "y\"><&"⟩

/-- A query with mixed-case keys, signed over the byte-order canonical
string `B=1&a=2` (the spec's canonicalization). -/
def cexQuery : List (String × String) :=
  [("a", "2"), ("B", "1"), ("signature", hmacSha256Hex "secret" "B=1&a=2")]

/-- A query with a duplicate key `a`, signed over its own canonical
string `a=1&a=2`. -/
def dupKeyQuery1 : List (String × String) :=
  [("a", "1"), ("a", "2"), ("signature", hmacSha256Hex "sec" "a=1&a=2")]

/-- The same multiset of entries as `dupKeyQuery1`, with the two `a`
entries swapped. -/
def dupKeyQuery2 : List (String × String) :=
  [("a", "2"), ("a", "1"), ("signature", hmacSha256Hex "sec" "a=1&a=2")]

/-- A query with pairwise-distinct keys, no two equivalent under the
collation. -/
def permQuery1 : List (String × String) :=
  [("b", "2"), ("a", "1"), ("signature", "s")]

/-- A reordering of `permQuery1`. -/
def permQuery2 : List (String × String) :=
  [("signature", "s"), ("a", "1"), ("b", "2")]

/-- Replaces every user-supplied text field of a block (title, FAQ
questions and answers, CTA description and button label) by an absent
value, leaving rich-text content and structure untouched.  Used to state
that those fields contribute no markup to the rendering. -/
def scrubBlock : BodyBlock → BodyBlock
  | .wysiwygBlock _ content => .wysiwygBlock none content
  | .faqBlock _ items => .faqBlock none (items.map (fun _ => ⟨none, none⟩))
  | .ctaBlock _ _ _ => .ctaBlock none none none
  | .quickAnswerBlock _ content => .quickAnswerBlock none content
  | .other tag => .other tag

/-- Replaces the post's user-supplied text fields (title, author names,
body-block text fields) by absent values. -/
def scrubPost (p : PostRec) : PostRec :=
  { p with title := none,
           body := p.body.map (List.map scrubBlock),
           authors := p.authors.map (List.map (fun _ => ⟨none⟩)) }

set_option maxRecDepth 400000

/-! ## General lemmas -/

/-- Prepending the empty string is the identity. -/
theorem empty_append_str (s : String) : "" ++ s = s := by
  apply String.ext
  simp [String.data_append]

/-- String concatenation is associative. -/
theorem str_append_assoc (a b c : String) : a ++ b ++ c = a ++ (b ++ c) := by
  apply String.ext
  simp [String.data_append]

/-- `join('')` distributes over list append. -/
theorem concatAll_append (l1 l2 : List String) :
    concatAll (l1 ++ l2) = concatAll l1 ++ concatAll l2 := by
  induction l1 with
  | nil => simp [concatAll, empty_append_str]
  | cons s rest ih => simp [concatAll, ih, str_append_assoc]

/-! ## Claims C3, C4, C6, C7, C8, C10 -/

/-- C4: for every query with no `signature` field and every secret,
`verifyShopifySignature` returns `false`.  The function is a total Lean
function of its two arguments, so it never throws and is pure by
construction. -/
theorem C4_no_signature_returns_false (secret : String) (q : List (String × String))
    (h : ∀ p ∈ q, p.1 ≠ "signature") : verifyShopifySignature secret q = false := by
  have hf : findSignature q = none := by
    unfold findSignature
    rw [List.find?_eq_none.mpr]
    · rfl
    · intro p hp
      simpa using h p hp
  unfold verifyShopifySignature
  rw [hf]

/-- C4 witness: a concrete signature-free query. -/
theorem C4_witness :
    (∀ p ∈ ([("shop", "x.myshopify.com")] : List (String × String)), p.1 ≠ "signature") ∧
      verifyShopifySignature "sec" [("shop", "x.myshopify.com")] = false :=
  ⟨by decide, C4_no_signature_returns_false "sec" _ (by decide)⟩

/-- C3: whenever the signature check passes and the fetch/render step
throws (any `Except.error`, which covers the missing-record and
empty-author-list throws), the handler responds 404 with the fixed body
`Content not found` and nothing else. -/
theorem C3_errors_collapse_to_404 (secret : String) (q : List (String × String))
    (path : Option (List String)) (ext : ExtFns) (store : ProxyStore) (e : String)
    (hv : verifyShopifySignature secret q = true)
    (he : routedFetch ext store (slugOf path) = .error e) :
    GET secret q path ext store = ⟨404, "Content not found", []⟩ := by
  unfold GET
  rw [hv, he]
  simp

/-- C3 witness: valid signature, list mode, store returns no author
collection (the `No authors found` throw). -/
theorem C3_witness :
    verifyShopifySignature "sec" sigOnlyQuery = true ∧
      GET "sec" sigOnlyQuery none ext0 storeEmpty = ⟨404, "Content not found", []⟩ := by
  have hv : verifyShopifySignature "sec" sigOnlyQuery = true := by decide
  exact ⟨hv, C3_errors_collapse_to_404 "sec" sigOnlyQuery none ext0 storeEmpty
    "No authors found" hv rfl⟩

/-- C8: whenever the signature check passes and the fetch/render step
succeeds, the response is 200 with exactly the headers
`Content-Type: application/liquid` and `Cache-Control: public, max-age=300`,
and the rendered document as body. -/
theorem C8_success_response_shape (secret : String) (q : List (String × String))
    (path : Option (List String)) (ext : ExtFns) (store : ProxyStore) (html : String)
    (hv : verifyShopifySignature secret q = true)
    (ho : routedFetch ext store (slugOf path) = .ok html) :
    GET secret q path ext store =
      ⟨200, html, [("Content-Type", "application/liquid"),
                   ("Cache-Control", "public, max-age=300")]⟩ := by
  unfold GET
  rw [hv, ho]
  simp

/-- C8 witness: valid signature, path `liste`, one-author store. -/
theorem C8_witness :
    verifyShopifySignature "sec" sigOnlyQuery = true ∧
      GET "sec" sigOnlyQuery (some ["liste"]) ext0 storeOneAuthor =
        ⟨200, listHtmlOneAuthor, [("Content-Type", "application/liquid"),
                                  ("Cache-Control", "public, max-age=300")]⟩ := by
  have hv : verifyShopifySignature "sec" sigOnlyQuery = true := by decide
  exact ⟨hv, C8_success_response_shape "sec" sigOnlyQuery (some ["liste"]) ext0
    storeOneAuthor listHtmlOneAuthor hv rfl⟩

/-- C6: a block whose `_type` is none of the four known kinds renders as
the empty string (the switch's `default` arm, with no error possible: the
renderer is total), and removing it leaves every other block's
contribution unchanged. -/
theorem C6_unknown_block_is_skipped (ext : ExtFns) (tag : String)
    (pre post : List BodyBlock) :
    renderBlock ext (BodyBlock.other tag) = "" ∧
      renderBody ext (some (pre ++ BodyBlock.other tag :: post)) =
        renderBody ext (some (pre ++ post)) := by
  refine ⟨rfl, ?_⟩
  simp [renderBody, List.map_append, concatAll_append, concatAll, renderBlock,
    empty_append_str]

/-- C10: the hero-image `src` of a post and the card image `src` of an
author interpolate the store's photo URL verbatim, with no pass through
`escapeHTML` (only the alt text is escaped), whatever characters the URL
contains. -/
theorem C10_img_src_verbatim :
    (∀ (p : PostRec) (u : String), p.mainPhotoUrl = some u → u ≠ "" →
      imgFragment p =
        "<img src=\"" ++ u ++ "\" alt=\"" ++ escapeHTML (jsOr p.mainPhotoAlt p.title) ++ "\">") ∧
    (∀ (a : AuthorRec) (u : String), a.photoUrl = some u → u ≠ "" →
      authorCard a =
        "\n    <div class=\"author-card\">\n      " ++
          ("<img src=\"" ++ u ++ "\" alt=\"" ++ escapeHTML a.fullName ++ "\">") ++
          "\n      <h2>" ++ escapeHTML a.fullName ++ "</h2>\n    </div>\n  ") := by
  constructor
  · intro p u hu hne
    unfold imgFragment
    rw [hu]
    simp [jsTruthy, hne]
  · intro a u hu hne
    unfold authorCard
    rw [hu]
    simp [jsTruthy, hne]

/-- C10 witness: URLs containing `"`, `<`, `>`, `&` pass into `src`
unchanged. -/
theorem C10_witness :
    imgFragment hostileUrlPost =
      "<img src=\"" ++ "x\" onerror=\"<&>" ++ "\" alt=\"" ++
        escapeHTML (jsOr hostileUrlPost.mainPhotoAlt hostileUrlPost.title) ++ "\">" :=
  C10_img_src_verbatim.1 hostileUrlPost "x\" onerror=\"<&>" rfl (by decide)

/-! ## Claim C7 -/

/-- C7: an empty path (or the reserved literal `liste`) with a valid
signature selects list mode, and the response document is the list
template around one author card per returned author, concatenated in
store order. -/
theorem C7_list_mode_renders_all_authors (secret : String) (q : List (String × String))
    (path : Option (List String)) (ext : ExtFns) (store : ProxyStore)
    (authors : List AuthorRec)
    (hv : verifyShopifySignature secret q = true)
    (hslug : slugOf path = "" ∨ slugOf path = "liste")
    (ha : store.authors = some authors) (hne : authors ≠ []) :
    GET secret q path ext store =
      ⟨200, listDocHead ++ concatAll (authors.map authorCard) ++ listDocTail,
        [("Content-Type", "application/liquid"),
         ("Cache-Control", "public, max-age=300")]⟩ := by
  have hroute : routedFetch ext store (slugOf path) = fetchAndRenderAuthorList store.authors := by
    rcases hslug with h | h <;> rw [h] <;> rfl
  have hfetch : fetchAndRenderAuthorList store.authors =
      .ok (listDocHead ++ concatAll (authors.map authorCard) ++ listDocTail) := by
    rw [ha]
    cases authors with
    | nil => exact absurd rfl hne
    | cons a rest => rfl
  unfold GET
  rw [hv, hroute, hfetch]
  simp

/-- C7 witness: empty path, valid signature, a one-author store. -/
theorem C7_witness :
    verifyShopifySignature "sec" sigOnlyQuery = true ∧ slugOf none = "" ∧
      GET "sec" sigOnlyQuery none ext0 storeOneAuthor =
        ⟨200, listDocHead ++ concatAll ([oneAuthor].map authorCard) ++ listDocTail,
          [("Content-Type", "application/liquid"),
           ("Cache-Control", "public, max-age=300")]⟩ := by
  have hv : verifyShopifySignature "sec" sigOnlyQuery = true := by decide
  exact ⟨hv, rfl, C7_list_mode_renders_all_authors "sec" sigOnlyQuery none ext0
    storeOneAuthor [oneAuthor] hv (Or.inl rfl) rfl (by simp)⟩

/-! ## Claim C1 -/

/-- A hex rendering of a nonempty byte list is nonempty. -/
theorem bytesToHex_ne_empty (bs : List Nat) (h : bs ≠ []) : bytesToHex bs ≠ "" := by
  cases bs with
  | nil => exact absurd rfl h
  | cons b rest =>
      intro hc
      have := congrArg String.data hc
      simp [bytesToHex] at this

/-- A SHA-256 digest always has 32 bytes, in particular it is nonempty. -/
theorem sha256Bytes_ne_nil (m : List Nat) : sha256Bytes m ≠ [] := by
  unfold sha256Bytes wordBytes
  simp

/-- An HMAC-SHA256 hex digest is never the empty string. -/
theorem hmacSha256Hex_ne_empty (k m : String) : hmacSha256Hex k m ≠ "" := by
  unfold hmacSha256Hex
  exact bytesToHex_ne_empty _ (sha256Bytes_ne_nil _)

/-- C1 (amended): `verifyShopifySignature` returns true exactly when the
query's `signature` value equals the lowercase hex HMAC-SHA256 digest of
the canonical string whose keys are sorted by the code's `localeCompare`
collation (a whole case-insensitive primary pass over the non-ignorable
characters, then a lowercase-first case pass) — not by byte order. -/
theorem C1_verify_iff_localeCompare_canonical (secret : String)
    (q : List (String × String)) :
    verifyShopifySignature secret q = true ↔
      findSignature q = some (hmacSha256Hex secret (canonicalString q)) := by
  unfold verifyShopifySignature
  cases hf : findSignature q with
  | none => simp
  | some s =>
      by_cases hs : s = ""
      · subst hs
        constructor
        · intro h
          simp at h
        · intro h
          have h2 : hmacSha256Hex secret (canonicalString q) = "" :=
            (Option.some.inj h).symm
          exact absurd h2 (hmacSha256Hex_ne_empty _ _)
      · have hb : (s == "") = false := by simpa using hs
        simp only [hb, Bool.false_eq_true, if_false, beq_iff_eq, Option.some.injEq]
        constructor
        · intro h
          rw [h]
        · intro h
          exact h.symm

/-- C1 counterexample to the claim as stated: `cexQuery` carries the
signature computed over the byte-order canonical string `B=1&a=2`
(byte order puts `B` before `a`), so the claim requires `true`; the code
sorts `a` before `B` (`localeCompare`), hashes `a=2&B=1`, and returns
`false`. -/
theorem C1_counterexample :
    canonicalSpecString cexQuery = "B=1&a=2" ∧
      findSignature cexQuery = some (hmacSha256Hex "secret" (canonicalSpecString cexQuery)) ∧
      verifyShopifySignature "secret" cexQuery = false :=
  ⟨by decide, by decide, by decide⟩

/-! ## Claim C5: comparator laws and sort determinism -/

/-- Swapping the arguments of `compareLists` swaps the outcome. -/
theorem compareLists_swap : ∀ x y : List Nat, compareLists y x = (compareLists x y).swap
  | [], [] => rfl
  | [], _ :: _ => rfl
  | _ :: _, [] => rfl
  | a :: x, b :: y => by
      have hba : compare b a = (compare a b).swap := (Nat.compare_swap a b).symm
      unfold compareLists
      cases hc : compare a b with
      | lt => rw [hba, hc]; rfl
      | eq => rw [hba, hc]; exact compareLists_swap x y
      | gt => rw [hba, hc]; rfl

/-- `compareLists` answers `eq` exactly on equal lists. -/
theorem compareLists_eq_iff : ∀ x y : List Nat, compareLists x y = .eq ↔ x = y
  | [], [] => by simp [compareLists]
  | [], _ :: _ => by simp [compareLists]
  | _ :: _, [] => by simp [compareLists]
  | a :: x, b :: y => by
      unfold compareLists
      cases hc : compare a b with
      | lt =>
          simp only [List.cons.injEq]
          constructor
          · intro h
            exact absurd h (by simp)
          · rintro ⟨h1, _⟩
            rw [h1, Nat.compare_eq_eq.mpr rfl] at hc
            exact absurd hc (by simp)
      | eq =>
          have hab : a = b := Nat.compare_eq_eq.mp hc
          simp [hab, compareLists_eq_iff x y]
      | gt =>
          simp only [List.cons.injEq]
          constructor
          · intro h
            exact absurd h (by simp)
          · rintro ⟨h1, _⟩
            rw [h1, Nat.compare_eq_eq.mpr rfl] at hc
            exact absurd hc (by simp)

/-- Transitivity of the `not gt` relation induced by `compareLists`. -/
theorem compareLists_le_trans : ∀ x y z : List Nat,
    compareLists x y ≠ .gt → compareLists y z ≠ .gt → compareLists x z ≠ .gt
  | [], _, z => by
      intro _ _
      cases z <;> simp [compareLists]
  | _ :: _, [], _ => by
      intro h1 _
      exact absurd rfl h1
  | _ :: _, _ :: _, [] => by
      intro _ h2
      exact absurd rfl h2
  | a :: x, b :: y, c :: z => by
      intro h1 h2
      unfold compareLists at h1 h2 ⊢
      cases hab : compare a b with
      | gt => rw [hab] at h1; exact absurd rfl h1
      | lt =>
          have hlt : a < b := Nat.compare_eq_lt.mp hab
          cases hbc : compare b c with
          | gt => rw [hbc] at h2; exact absurd rfl h2
          | lt =>
              have h2lt : b < c := Nat.compare_eq_lt.mp hbc
              rw [Nat.compare_eq_lt.mpr (lt_trans hlt h2lt)]
              simp
          | eq =>
              have hbceq : b = c := Nat.compare_eq_eq.mp hbc
              rw [Nat.compare_eq_lt.mpr (hbceq ▸ hlt)]
              simp
      | eq =>
          have habeq : a = b := Nat.compare_eq_eq.mp hab
          rw [hab] at h1
          cases hbc : compare b c with
          | gt => rw [hbc] at h2; exact absurd rfl h2
          | lt =>
              rw [Nat.compare_eq_lt.mpr (habeq ▸ Nat.compare_eq_lt.mp hbc)]
              simp
          | eq =>
              rw [hbc] at h2
              rw [Nat.compare_eq_eq.mpr (habeq.trans (Nat.compare_eq_eq.mp hbc))]
              exact compareLists_le_trans x y z h1 h2

/-- A sorted list is determined by its multiset of elements once the
order relation is antisymmetric on those elements. -/
theorem sorted_perm_eq {α : Type} {r : α → α → Prop} :
    ∀ (l1 l2 : List α), l1.Perm l2 → List.Sorted r l1 → List.Sorted r l2 →
      (∀ a ∈ l1, ∀ b ∈ l1, r a b → r b a → a = b) → l1 = l2
  | [], l2, hp, _, _, _ => (hp.symm.eq_nil).symm
  | a :: t1, [], hp, _, _, _ => hp.eq_nil
  | a :: t1, b :: t2, hp, hs1, hs2, hanti => by
      have hab : a = b := by
        by_cases h : a = b
        · exact h
        · have hbmem : b ∈ a :: t1 := hp.mem_iff.mpr (List.mem_cons_self b t2)
          have hbt1 : b ∈ t1 := by
            cases List.mem_cons.mp hbmem with
            | inl hh => exact absurd hh.symm h
            | inr hh => exact hh
          have hamem : a ∈ b :: t2 := hp.mem_iff.mp (List.mem_cons_self a t1)
          have hat2 : a ∈ t2 := by
            cases List.mem_cons.mp hamem with
            | inl hh => exact absurd hh h
            | inr hh => exact hh
          have hrab : r a b := (List.sorted_cons.mp hs1).1 b hbt1
          have hrba : r b a := (List.sorted_cons.mp hs2).1 a hat2
          exact hanti a (List.mem_cons_self a t1) b hbmem hrab hrba
      subst hab
      have htail : t1 = t2 :=
        sorted_perm_eq t1 t2 hp.cons_inv (List.sorted_cons.mp hs1).2
          (List.sorted_cons.mp hs2).2
          (fun x hx y hy => hanti x (List.mem_cons_of_mem a hx) y (List.mem_cons_of_mem a hy))
      rw [htail]

/-- Swapping the arguments of the modelled `localeCompare` swaps the
outcome. -/
theorem localeCompare_swap (s t : String) :
    localeCompare t s = (localeCompare s t).swap := by
  unfold localeCompare
  rw [compareLists_swap (collPrim s) (collPrim t)]
  cases h : compareLists (collPrim s) (collPrim t) with
  | lt => rfl
  | gt => rfl
  | eq => exact compareLists_swap _ _

/-- Transitivity of the `not gt` relation induced by the modelled
`localeCompare`. -/
theorem localeCompare_le_trans (s t u : String)
    (h1 : localeCompare s t ≠ .gt) (h2 : localeCompare t u ≠ .gt) :
    localeCompare s u ≠ .gt := by
  unfold localeCompare at h1 h2 ⊢
  have hp1 : compareLists (collPrim s) (collPrim t) ≠ .gt := by
    intro h
    rw [h] at h1
    exact h1 rfl
  have hp2 : compareLists (collPrim t) (collPrim u) ≠ .gt := by
    intro h
    rw [h] at h2
    exact h2 rfl
  have hp3 : compareLists (collPrim s) (collPrim u) ≠ .gt :=
    compareLists_le_trans _ _ _ hp1 hp2
  cases hpsu : compareLists (collPrim s) (collPrim u) with
  | gt => exact absurd hpsu hp3
  | lt => simp
  | eq =>
      have hPsPu : collPrim s = collPrim u := (compareLists_eq_iff _ _).mp hpsu
      have hswap : compareLists (collPrim t) (collPrim u) =
          (compareLists (collPrim s) (collPrim t)).swap := by
        rw [← hPsPu]
        exact compareLists_swap _ _
      have hpst : compareLists (collPrim s) (collPrim t) = .eq := by
        cases ho : compareLists (collPrim s) (collPrim t) with
        | eq => rfl
        | gt => exact absurd ho hp1
        | lt =>
            rw [ho] at hswap
            simp [Ordering.swap] at hswap
            exact absurd hswap hp2
      have hptu : compareLists (collPrim t) (collPrim u) = .eq := by
        rw [hswap, hpst]
        rfl
      rw [hpst] at h1
      rw [hptu] at h2
      have ht1 : compareLists (collTert s) (collTert t) ≠ .gt := h1
      have ht2 : compareLists (collTert t) (collTert u) ≠ .gt := h2
      exact compareLists_le_trans _ _ _ ht1 ht2

/-- `find?` returns the head of the filtered list. -/
theorem find_eq_filter_head {α : Type} (p : α → Bool) :
    ∀ l : List α, l.find? p = (l.filter p).head?
  | [] => rfl
  | a :: t => by
      by_cases h : p a = true
      · rw [List.find?_cons_of_pos t h, List.filter_cons_of_pos h, List.head?_cons]
      · rw [List.find?_cons_of_neg t h, List.filter_cons_of_neg h]
        exact find_eq_filter_head p t

/-- C5 (amended): verification is invariant under reordering the query
parameters provided the keys are pairwise distinct and no two of them
are equivalent under the collation (distinct keys can collate equal,
e.g. when they differ only in ignorable control characters).  With a
duplicated or collation-equivalent key the stable sort preserves the
input order of the tied entries, so reordering can change the result
(`C5_counterexample`). -/
theorem C5_reordering_invariant_distinct_keys (secret : String)
    (q1 q2 : List (String × String)) (hperm : q1.Perm q2)
    (hnodup : (q1.map Prod.fst).Nodup)
    (htie : ∀ a ∈ q1, ∀ b ∈ q1, localeCompare a.1 b.1 = .eq → a.1 = b.1) :
    verifyShopifySignature secret q1 = verifyShopifySignature secret q2 := by
  have hfilters : (q1.filter (fun p => p.1 == "signature")).Perm
      (q2.filter (fun p => p.1 == "signature")) := hperm.filter _
  have hfind : findSignature q1 = findSignature q2 := by
    unfold findSignature
    rw [find_eq_filter_head, find_eq_filter_head]
    cases hf1 : q1.filter (fun p => p.1 == "signature") with
    | nil =>
        rw [hf1] at hfilters
        rw [hfilters.symm.eq_nil]
    | cons x rest =>
        cases rest with
        | nil =>
            rw [hf1] at hfilters
            rw [List.perm_singleton.mp hfilters.symm]
        | cons y rest2 =>
            exfalso
            have hsubl : ((q1.filter (fun p => p.1 == "signature")).map Prod.fst).Sublist
                (q1.map Prod.fst) := (List.filter_sublist q1).map Prod.fst
            have hnd : ((q1.filter (fun p => p.1 == "signature")).map Prod.fst).Nodup :=
              hnodup.sublist hsubl
            have hx : x.1 = "signature" := by
              have hxmem : x ∈ q1.filter (fun p => p.1 == "signature") := by
                rw [hf1]
                exact List.mem_cons_self _ _
              simpa using List.of_mem_filter hxmem
            have hy : y.1 = "signature" := by
              have hymem : y ∈ q1.filter (fun p => p.1 == "signature") := by
                rw [hf1]
                exact List.mem_cons_of_mem _ (List.mem_cons_self _ _)
              simpa using List.of_mem_filter hymem
            rw [hf1] at hnd
            simp [hx, hy] at hnd
  have hdelperm : (deleteSignature q1).Perm (deleteSignature q2) := by
    unfold deleteSignature
    exact hperm.filter _
  have hmemq1 : ∀ a ∈ sortParams (deleteSignature q1), a ∈ q1 := by
    intro a ha
    have h1 : a ∈ deleteSignature q1 :=
      (List.perm_insertionSort paramLe _).mem_iff.mp ha
    exact List.mem_of_mem_filter h1
  have htot : IsTotal (String × String) paramLe := by
    constructor
    intro p q
    by_cases h : localeCompare p.1 q.1 = .gt
    · right
      unfold paramLe
      rw [localeCompare_swap, h]
      simp [Ordering.swap]
    · exact Or.inl h
  have htrans : IsTrans (String × String) paramLe := by
    constructor
    intro p q r h1 h2
    exact localeCompare_le_trans _ _ _ h1 h2
  have hs1 : List.Sorted paramLe (sortParams (deleteSignature q1)) :=
    @List.sorted_insertionSort _ paramLe _ htot htrans _
  have hs2 : List.Sorted paramLe (sortParams (deleteSignature q2)) :=
    @List.sorted_insertionSort _ paramLe _ htot htrans _
  have hp12 : (sortParams (deleteSignature q1)).Perm (sortParams (deleteSignature q2)) :=
    ((List.perm_insertionSort paramLe _).trans hdelperm).trans
      (List.perm_insertionSort paramLe _).symm
  have hanti : ∀ a ∈ sortParams (deleteSignature q1), ∀ b ∈ sortParams (deleteSignature q1),
      paramLe a b → paramLe b a → a = b := by
    intro a ha b hb hab hba
    have haq : a ∈ q1 := hmemq1 a ha
    have hbq : b ∈ q1 := hmemq1 b hb
    have heq : localeCompare a.1 b.1 = .eq := by
      unfold paramLe at hab hba
      cases ho : localeCompare a.1 b.1 with
      | eq => rfl
      | gt => exact absurd ho hab
      | lt =>
          exfalso
          apply hba
          rw [localeCompare_swap a.1 b.1, ho]
          rfl
    have hkey : a.1 = b.1 := htie a haq b hbq heq
    exact List.inj_on_of_nodup_map hnodup haq hbq hkey
  have hsorteq : sortParams (deleteSignature q1) = sortParams (deleteSignature q2) :=
    sorted_perm_eq _ _ hp12 hs1 hs2 hanti
  have hcanon : canonicalString q1 = canonicalString q2 := by
    unfold canonicalString
    rw [hsorteq]
  unfold verifyShopifySignature
  rw [hfind, hcanon]

/-- C5 counterexample to the claim as stated: the two queries hold the
same multiset of entries (the two `a` entries swapped); the first
verifies, the second does not, because the stable sort keeps equal keys
in input order, producing `a=1&a=2` versus `a=2&a=1`. -/
theorem C5_counterexample :
    dupKeyQuery1.Perm dupKeyQuery2 ∧
      verifyShopifySignature "sec" dupKeyQuery1 = true ∧
      verifyShopifySignature "sec" dupKeyQuery2 = false :=
  ⟨List.Perm.swap _ _ _, by decide, by decide⟩

/-- C5 witness: a reordering with pairwise-distinct, pairwise
non-equivalent keys verifies identically. -/
theorem C5_witness :
    permQuery1.Perm permQuery2 ∧ (permQuery1.map Prod.fst).Nodup ∧
      (∀ a ∈ permQuery1, ∀ b ∈ permQuery1, localeCompare a.1 b.1 = .eq → a.1 = b.1) ∧
      verifyShopifySignature "sec" permQuery1 = verifyShopifySignature "sec" permQuery2 :=
  ⟨by decide, by decide, by decide,
    C5_reordering_invariant_distinct_keys "sec" permQuery1 permQuery2 (by decide)
      (by decide) (by decide)⟩

/-! ## Claim C2: escaping removes raw markup characters -/

/-- A character of `replaceChar c rep l` comes from `rep` or is a
character of `l` other than `c`. -/
theorem mem_replaceChar {x c : Char} {rep : List Char} :
    ∀ l : List Char, x ∈ replaceChar c rep l → x ∈ rep ∨ (x ∈ l ∧ x ≠ c)
  | [], h => absurd h (List.not_mem_nil x)
  | y :: ys, h => by
      unfold replaceChar at h
      rcases List.mem_append.mp h with h1 | h2
      · by_cases hyc : y = c
        · rw [if_pos hyc] at h1
          exact Or.inl h1
        · rw [if_neg hyc] at h1
          have hx : x = y := by simpa using h1
          exact Or.inr ⟨by simp [hx], by rw [hx]; exact hyc⟩
      · rcases mem_replaceChar ys h2 with h3 | ⟨h4, h5⟩
        · exact Or.inl h3
        · exact Or.inr ⟨List.mem_cons_of_mem y h4, h5⟩

/-- The escape chain leaves no raw `<`, `>` or `"` in its output. -/
theorem escRun_excludes (s : String) :
    '<' ∉ (escRun s).data ∧ '>' ∉ (escRun s).data ∧ '"' ∉ (escRun s).data := by
  refine ⟨?_, ?_, ?_⟩ <;> intro hmem
  · rcases mem_replaceChar _ hmem with h | ⟨h, _⟩
    · exact absurd h (by decide)
    rcases mem_replaceChar _ h with h | ⟨h, _⟩
    · exact absurd h (by decide)
    rcases mem_replaceChar _ h with h | ⟨_, hne⟩
    · exact absurd h (by decide)
    · exact hne rfl
  · rcases mem_replaceChar _ hmem with h | ⟨h, _⟩
    · exact absurd h (by decide)
    rcases mem_replaceChar _ h with h | ⟨_, hne⟩
    · exact absurd h (by decide)
    · exact hne rfl
  · rcases mem_replaceChar _ hmem with h | ⟨_, hne⟩
    · exact absurd h (by decide)
    · exact hne rfl

/-- `escapeHTML` output never holds a character excluded by the chain. -/
theorem not_mem_escapeHTML {c : Char} (hesc : ∀ s : String, c ∉ (escRun s).data)
    (v : Option String) : c ∉ (escapeHTML v).data := by
  unfold escapeHTML
  split
  · exact hesc _
  · simp

/-- Counting distributes over string concatenation. -/
theorem countCh_append (c : Char) (a b : String) :
    countCh c (a ++ b) = countCh c a + countCh c b := by
  simp [countCh, String.data_append]

/-- A character absent from a string is counted zero times. -/
theorem countCh_eq_zero {c : Char} {s : String} (h : c ∉ s.data) : countCh c s = 0 :=
  List.count_eq_zero.mpr h

/-- `escapeHTML` output counts zero for any excluded character. -/
theorem count_escapeHTML_zero {c : Char} (hesc : ∀ s : String, c ∉ (escRun s).data)
    (v : Option String) : countCh c (escapeHTML v) = 0 :=
  countCh_eq_zero (not_mem_escapeHTML hesc v)

/-- Counting a concatenation sums the per-entry counts. -/
theorem count_concatAll (c : Char) : ∀ l : List String,
    countCh c (concatAll l) = (l.map (countCh c)).sum
  | [] => by simp [concatAll, countCh]
  | s :: rest => by
      rw [concatAll, countCh_append, count_concatAll c rest]
      simp

/-- A character absent from the separator and every entry is absent from
the joined string. -/
theorem not_mem_sepConcat {c : Char} {sep : String} (hsep : c ∉ sep.data) :
    ∀ l : List String, (∀ s ∈ l, c ∉ s.data) → c ∉ (sepConcat sep l).data
  | [], _ => by simp [sepConcat]
  | [s], h => by
      simpa [sepConcat] using h s (List.mem_cons_self s [])
  | s :: t :: rest, h => by
      intro hmem
      rw [show sepConcat sep (s :: t :: rest) = s ++ sep ++ sepConcat sep (t :: rest) from rfl,
        String.data_append, String.data_append] at hmem
      rcases List.mem_append.mp hmem with h1 | h2
      · rcases List.mem_append.mp h1 with h3 | h4
        · exact h s (List.mem_cons_self s _) h3
        · exact hsep h4
      · exact not_mem_sepConcat hsep (t :: rest)
          (fun x hx => h x (List.mem_cons_of_mem s hx)) h2

/-- The author-names meta fragment holds no excluded character. -/
theorem not_mem_authorsFragment {c : Char} (hesc : ∀ s : String, c ∉ (escRun s).data)
    (hsep : c ∉ " · Par ".data) (hcomma : c ∉ ", ".data) (p : PostRec) :
    c ∉ (authorsFragment p).data := by
  unfold authorsFragment
  split
  · rw [String.data_append]
    intro hmem
    rcases List.mem_append.mp hmem with h1 | h2
    · exact hsep h1
    · unfold authorNamesStr at h2
      cases hA : p.authors with
      | none => rw [hA] at h2; simp at h2
      | some l =>
          rw [hA] at h2
          exact not_mem_sepConcat hcomma _
            (fun x hx => by
              rcases List.mem_map.mp hx with ⟨a, _, ha⟩
              rw [← ha]
              exact not_mem_escapeHTML hesc _) h2
  · simp

/-- Scrubbing does not change the hero-image fragment's count of an
excluded character (the URL is untouched; alt text is escaped). -/
theorem count_imgFragment_scrub {c : Char} (hesc : ∀ s : String, c ∉ (escRun s).data)
    (p : PostRec) : countCh c (imgFragment (scrubPost p)) = countCh c (imgFragment p) := by
  have hurl : (scrubPost p).mainPhotoUrl = p.mainPhotoUrl := rfl
  unfold imgFragment
  rw [hurl]
  split
  · simp only [countCh_append, count_escapeHTML_zero hesc, hurl]
  · rfl

/-- Scrubbing a FAQ item does not change the item fragment's count of an
excluded character. -/
theorem count_faqItemRender_scrub {c : Char} (hesc : ∀ s : String, c ∉ (escRun s).data)
    (it : FaqItem) :
    countCh c (faqItemRender ⟨none, none⟩) = countCh c (faqItemRender it) := by
  unfold faqItemRender
  simp only [countCh_append, count_escapeHTML_zero hesc]

/-- Scrubbing a block does not change its markup count of an excluded
character. -/
theorem count_renderBlock_scrub {c : Char} (hesc : ∀ s : String, c ∉ (escRun s).data)
    (ext : ExtFns) (b : BodyBlock) :
    countCh c (renderBlock ext (scrubBlock b)) = countCh c (renderBlock ext b) := by
  cases b with
  | wysiwygBlock t content =>
      simp only [scrubBlock, renderBlock, countCh_append, count_escapeHTML_zero hesc]
  | faqBlock t items =>
      simp only [scrubBlock, renderBlock, countCh_append, count_escapeHTML_zero hesc,
        count_concatAll, List.map_map]
      have hmap : items.map (countCh c ∘ faqItemRender ∘ fun _ => (⟨none, none⟩ : FaqItem)) =
          items.map (countCh c ∘ faqItemRender) := by
        apply List.map_congr_left
        intro it _
        exact count_faqItemRender_scrub hesc it
      rw [hmap]
  | ctaBlock t d btn =>
      simp only [scrubBlock, renderBlock, countCh_append, count_escapeHTML_zero hesc]
  | quickAnswerBlock t content =>
      simp only [scrubBlock, renderBlock, countCh_append, count_escapeHTML_zero hesc]
  | other tag => rfl

/-- Scrubbing the body blocks does not change the rendered body's count
of an excluded character. -/
theorem count_renderBody_scrub {c : Char} (hesc : ∀ s : String, c ∉ (escRun s).data)
    (ext : ExtFns) (bs : List BodyBlock) :
    countCh c (renderBody ext (some (bs.map scrubBlock))) =
      countCh c (renderBody ext (some bs)) := by
  unfold renderBody
  rw [count_concatAll, count_concatAll]
  simp only [List.map_map]
  apply congrArg
  apply List.map_congr_left
  intro b _
  exact count_renderBlock_scrub hesc ext b

/-- Scrubbing the post's user text fields does not change the assembled
document's count of an excluded character. -/
theorem count_renderPost_scrub {c : Char} (hesc : ∀ s : String, c ∉ (escRun s).data)
    (hsep : c ∉ " · Par ".data) (hcomma : c ∉ ", ".data) (ext : ExtFns) (p : PostRec) :
    countCh c (renderPost ext (scrubPost p)) = countCh c (renderPost ext p) := by
  have htitle1 : countCh c (escapeHTML (scrubPost p).title) = 0 := count_escapeHTML_zero hesc _
  have htitle2 : countCh c (escapeHTML p.title) = 0 := count_escapeHTML_zero hesc _
  have hpub : publishedFragment ext (scrubPost p) = publishedFragment ext p := rfl
  have hauth1 : countCh c (authorsFragment (scrubPost p)) = 0 :=
    countCh_eq_zero (not_mem_authorsFragment hesc hsep hcomma _)
  have hauth2 : countCh c (authorsFragment p) = 0 :=
    countCh_eq_zero (not_mem_authorsFragment hesc hsep hcomma _)
  have himg : countCh c (imgFragment (scrubPost p)) = countCh c (imgFragment p) :=
    count_imgFragment_scrub hesc p
  have hbody : countCh c (renderBody ext (scrubPost p).body) =
      countCh c (renderBody ext p.body) := by
    rw [show (scrubPost p).body = p.body.map (List.map scrubBlock) from rfl]
    cases hb : p.body with
    | none => rfl
    | some bs => exact count_renderBody_scrub hesc ext bs
  unfold renderPost
  simp only [countCh_append, htitle1, htitle2, hpub, hauth1, hauth2, himg, hbody]

/-- C2: every user-supplied text field of the block renderer and page
assembler (post title, block titles, FAQ questions and answers, CTA
description and button label, author names) flows through `escapeHTML`,
whose output holds no raw `<`, `>` or `"`; consequently replacing all
those fields by absent values leaves the number of `<` and of `>` in the
rendered output unchanged — the fields contribute no raw angle bracket
outside the generated structural tags. -/
theorem C2_escaping_blocks_markup_injection :
    (∀ v : Option String, '<' ∉ (escapeHTML v).data ∧ '>' ∉ (escapeHTML v).data ∧
      '"' ∉ (escapeHTML v).data) ∧
    (∀ (ext : ExtFns) (bs : List BodyBlock),
      countCh '<' (renderBody ext (some (bs.map scrubBlock))) =
        countCh '<' (renderBody ext (some bs)) ∧
      countCh '>' (renderBody ext (some (bs.map scrubBlock))) =
        countCh '>' (renderBody ext (some bs))) ∧
    (∀ (ext : ExtFns) (p : PostRec),
      countCh '<' (renderPost ext (scrubPost p)) = countCh '<' (renderPost ext p) ∧
      countCh '>' (renderPost ext (scrubPost p)) = countCh '>' (renderPost ext p)) := by
  have hlt : ∀ s : String, '<' ∉ (escRun s).data := fun s => (escRun_excludes s).1
  have hgt : ∀ s : String, '>' ∉ (escRun s).data := fun s => (escRun_excludes s).2.1
  refine ⟨?_, ?_, ?_⟩
  · intro v
    exact ⟨not_mem_escapeHTML hlt v, not_mem_escapeHTML hgt v,
      not_mem_escapeHTML (fun s => (escRun_excludes s).2.2) v⟩
  · intro ext bs
    exact ⟨count_renderBody_scrub hlt ext bs, count_renderBody_scrub hgt ext bs⟩
  · intro ext p
    exact ⟨count_renderPost_scrub hlt (by decide) (by decide) ext p,
      count_renderPost_scrub hgt (by decide) (by decide) ext p⟩

/-! ## Claim C9 -/

/-- Replacing characters by nonempty strings preserves nonemptiness. -/
theorem replaceChar_ne_nil {c : Char} {rep : List Char} (hrep : rep ≠ []) :
    ∀ {l : List Char}, l ≠ [] → replaceChar c rep l ≠ []
  | [], h => absurd rfl h
  | x :: xs, _ => by
      unfold replaceChar
      intro hc
      rcases List.append_eq_nil.mp hc with ⟨h1, _⟩
      by_cases hxc : x = c
      · rw [if_pos hxc] at h1
        exact hrep h1
      · rw [if_neg hxc] at h1
        exact absurd h1 (by simp)

/-- A nonempty string stays nonempty through the escape chain. -/
theorem escRun_ne_empty {t : String} (h : t ≠ "") : escRun t ≠ "" := by
  have hd : t.data ≠ [] := by
    intro hdata
    exact h (String.ext hdata)
  intro hc
  have h2 : (escRun t).data = [] := by rw [hc]
  unfold escRun at h2
  exact replaceChar_ne_nil (by decide)
    (replaceChar_ne_nil (by decide)
      (replaceChar_ne_nil (by decide)
        (replaceChar_ne_nil (by decide) hd))) h2

/-- C9 (amended): assuming the content-store contract — modelled from
the spec, the store's schema being outside this repository — that the
fetched record carries a non-empty title, the title reaches assembly
escaped and non-empty; an absent publication date, absent (or empty)
author list and absent photo URL each render as the empty fragment; an
absent image alt text with a photo present is NOT omitted but falls back
to the escaped post title; and a record with every optional field absent
renders a document with no literal `undefined`. -/
theorem C9_absent_optionals_render_empty (ext : ExtFns) (p : PostRec) (t : String)
    (ht : p.title = some t) (hne : t ≠ "") :
    (escapeHTML p.title = escRun t ∧ escRun t ≠ "") ∧
    (p.publishedAt = none → publishedFragment ext p = "") ∧
    ((p.authors = none ∨ p.authors = some []) → authorsFragment p = "") ∧
    (p.mainPhotoUrl = none → imgFragment p = "") ∧
    (∀ u, p.mainPhotoUrl = some u → u ≠ "" → p.mainPhotoAlt = none →
      imgFragment p = "<img src=\"" ++ u ++ "\" alt=\"" ++ escRun t ++ "\">") ∧
    (∀ e : ExtFns, occursStr "undefined" (renderPost e bareTitlePost) = false) := by
  refine ⟨⟨?_, escRun_ne_empty hne⟩, ?_, ?_, ?_, ?_, ?_⟩
  · rw [ht]
    simp [escapeHTML, jsTruthy, hne]
  · intro h
    unfold publishedFragment publishedDateStr
    rw [h]
    rfl
  · intro h
    unfold authorsFragment authorNamesStr
    rcases h with h | h <;> rw [h] <;> rfl
  · intro h
    unfold imgFragment
    rw [h]
    rfl
  · intro u hu hune halt
    unfold imgFragment
    rw [hu, halt]
    simp [jsTruthy, hune, jsOr, ht, escapeHTML, hne]
  · intro e
    rfl

/-- C9 counterexample to the claim as stated: `altlessPost` has a photo
URL but no alt text; the claim requires the alt markup to be omitted,
yet the assembled document carries `alt="T"` — the code substitutes the
escaped title instead of omitting the attribute. -/
theorem C9_counterexample :
    altlessPost.mainPhotoAlt = none ∧
      imgFragment altlessPost = "<img src=\"u\" alt=\"T\">" ∧
      occursStr "alt=\"T\"" (renderPost ext0 altlessPost) = true :=
  ⟨rfl, by decide, by decide⟩

/-- C9 witness: the amended theorem applied at a concrete record. -/
theorem C9_witness :
    altlessPost.title = some "T" ∧ ("T" : String) ≠ "" ∧
      (escapeHTML altlessPost.title = escRun "T" ∧ escRun "T" ≠ "") :=
  ⟨rfl, by decide,
    (C9_absent_optionals_render_empty ext0 altlessPost "T" rfl (by decide)).1⟩
